import Mathlib

/-!
Verification of the fund-analysis program (src/fund_app.py) against its
natural-language specification.

The development shallowly embeds the data-bearing core of the program:

* `resolveColumns`     : the column recovery of `get_fund_data_v2` (name match
                         on the date marker and the unit-NAV marker, with a
                         positional fallback to the first two columns);
* `cleanSeries`        : the cleaning chain of `get_fund_data_v2` (coerce the
                         date and value columns, drop rows where either
                         coercion failed, sort ascending by date);
* `computeDF`          : the Bollinger pass (rolling window 20, multiplier 2,
                         sample standard deviation) plus `get_signal`;
* `spliceDetail`       : the realtime splice of `render_detail_page`;
* `spliceOverview`     : the realtime splice of `fetch_single_fund_stats`;
* `overviewBatch`      : the per-code stats collection of
                         `render_overview_page` with
                         `calculate_final_signal`.

Untyped cells are abstracted by what the pandas coercions make of them: a
`Cell` records the outcome of the to-datetime coercion and of the to-numeric
coercion.  Dates are integers (only their order is used), values are
rationals, and band values live in the reals so that the sample standard
deviation is exact.
-/

namespace FundApp

/-- Calendar dates, abstracted as integers; the program only compares them. -/
abbrev Date := Int

/-- One untyped table cell, abstracted by what the pandas coercions of
`get_fund_data_v2` make of it: `asDate` is the outcome of the to-datetime
coercion with coerced errors (`none` = NaT), `asNum` the outcome of the
to-numeric coercion (`none` = NaN). -/
structure Cell where
  asDate : Option Date
  asNum : Option ℚ
deriving DecidableEq

/-- A raw provider table: ordered column names and rows of untyped cells,
as `ak.fund_open_fund_info_em` returns them. -/
structure RawTable where
  colNames : List String
  rows : List (List Cell)

/-- `leadMatch pat s` : does `pat` occur at the head of `s`? -/
def leadMatch : List Char → List Char → Bool
  | [], _ => true
  | _ :: _, [] => false
  | a :: as, b :: bs => a == b && leadMatch as bs

/-- `hasSub pat s` : does `pat` occur contiguously inside `s`?  This is the
Python substring test `pat in s`. -/
def hasSub (pat : List Char) : List Char → Bool
  | [] => pat.isEmpty
  | c :: rest => leadMatch pat (c :: rest) || hasSub pat rest

/-- Python `str(c).strip()` on a column name. -/
def pyStrip (s : String) : List Char :=
  ((s.data.dropWhile Char.isWhitespace).reverse.dropWhile Char.isWhitespace).reverse

/-- The test `tok in str(c).strip()` of the column-mapping loop. -/
def nameHas (s tok : String) : Bool := hasSub tok.data (pyStrip s)

/-- A column name the loop maps to `date`: it contains the date marker. -/
def isDateName (s : String) : Bool := nameHas s "日期"

/-- A column name the loop maps to `value`: it contains the unit-NAV marker
and was not already mapped to `date` (the source uses an elif chain). -/
def isValueName (s : String) : Bool := !isDateName s && nameHas s "单位净值"

/-- A column name the loop maps to 日增长率: it reaches the third elif, so
it carries the growth marker but neither of the two earlier ones. -/
def isGrowthName (s : String) : Bool :=
  !isDateName s && !nameHas s "单位净值" && nameHas s "日增长率"

/-- How column recovery ends.  `crash` is the path where the renaming left a
duplicated column name and the subsequent coercion raises into the outer
except of `get_fund_data_v2` (source lines 126-129). -/
inductive ColResolution
  | resolved (di vi : Nat)
  | fallback
  | failed
  | crash
deriving DecidableEq

/-- Column recovery of `get_fund_data_v2` (source lines 63-89): the rename
loop maps EVERY matching column to its target (`date`, `value`, 日增长率).
When no `date` or no `value` column results, the source falls back to the
first two columns positionally when at least two columns exist, and
otherwise returns the recognition error.  When both targets exist but any
rename target is carried by two or more columns, selecting the column (line
86, 87 or 89) yields a DataFrame instead of a Series and the coercion
raises — the outer except then returns the initialized empty frame together
with `error_msg`.  With unique targets the resolved indices are exactly the
(first and only) matches.  Original column names are taken not to coincide
literally with the rename targets themselves (the provider names its
columns in Chinese), so duplication can arise only from marker matches. -/
def resolveColumns (t : RawTable) : ColResolution :=
  match t.colNames.findIdx? isDateName, t.colNames.findIdx? isValueName with
  | some di, some vi =>
      if 2 ≤ t.colNames.countP isDateName ∨ 2 ≤ t.colNames.countP isValueName ∨
          2 ≤ t.colNames.countP isGrowthName then .crash
      else .resolved di vi
  | _, _ => if 2 ≤ t.colNames.length then .fallback else .failed

/-- Coerce one row at the resolved date and value columns. -/
def parseRow (r : List Cell) (di vi : Nat) : Option Date × Option ℚ :=
  ((r.get? di).bind Cell.asDate, (r.get? vi).bind Cell.asNum)

/-- Both coercions applied to the whole table. -/
def parsedRows (t : RawTable) (di vi : Nat) : List (Option Date × Option ℚ) :=
  t.rows.map (fun r => parseRow r di vi)

/-- `df.dropna(subset=...)` over the two coerced columns: keep exactly the
rows where both coercions succeeded. -/
def dropna (l : List (Option Date × Option ℚ)) : List (Date × ℚ) :=
  l.filterMap fun p => match p with
    | (some d, some v) => some (d, v)
    | _ => none

/-- `df.sort_values` over the date column (ascending). -/
def sortByDate (l : List (Date × ℚ)) : List (Date × ℚ) :=
  List.insertionSort (fun a b => a.1 ≤ b.1) l

/-- The cleaning chain of `get_fund_data_v2` (source lines 86-94): coerce,
drop invalid rows, sort ascending by date.  The source applies no further
filter: no plausibility-range check and no deduplication. -/
def cleanSeries (t : RawTable) (di vi : Nat) : List (Date × ℚ) :=
  sortByDate (dropna (parsedRows t di vi))

/-- The trading signal produced by `get_signal`: 卖出 / 买入 / 持有 / 数据不足. -/
inductive Signal
  | sell
  | buy
  | hold
  | insufficient
deriving DecidableEq

/-- Arithmetic mean, as pandas rolling `.mean()` computes it on one window. -/
def mean (w : List ℚ) : ℚ := w.sum / (w.length : ℚ)

/-- Sample variance with divisor `length - 1`, the square of what pandas
rolling `.std()` (which uses one delta degree of freedom) computes. -/
def sampleVar (w : List ℚ) : ℚ :=
  ((w.map fun x => (x - mean w) ^ 2).sum) / ((w.length : ℚ) - 1)

/-- The window pandas `rolling(window=20)` uses at position `i`:
the 20 entries ending at `i` (meaningful when `19 ≤ i < length`). -/
def window20 (xs : List ℚ) (i : Nat) : List ℚ := (xs.drop (i - 19)).take 20

/-- The `MB` column: rolling mean, NaN (`none`) before the window fills. -/
def rollingMB (xs : List ℚ) (i : Nat) : Option ℚ :=
  if 19 ≤ i ∧ i < xs.length then some (mean (window20 xs i)) else none

/-- The `STD` column: rolling sample standard deviation. -/
noncomputable def rollingSTD (xs : List ℚ) (i : Nat) : Option ℝ :=
  if 19 ≤ i ∧ i < xs.length then some (Real.sqrt (sampleVar (window20 xs i))) else none

/-- The `UB` column: `MB + 2 * STD`. -/
noncomputable def rollingUB (xs : List ℚ) (i : Nat) : Option ℝ :=
  match rollingMB xs i, rollingSTD xs i with
  | some m, some s => some ((m : ℝ) + 2 * s)
  | _, _ => none

/-- The `LB` column: `MB - 2 * STD`. -/
noncomputable def rollingLB (xs : List ℚ) (i : Nat) : Option ℝ :=
  match rollingMB xs i, rollingSTD xs i with
  | some m, some s => some ((m : ℝ) - 2 * s)
  | _, _ => none

open Classical in
/-- `get_signal` of the source (lines 108-116): 数据不足 when `UB` or `LB`
is NaN, 卖出 on `value > UB`, 买入 on `value < LB`, 持有 otherwise. -/
noncomputable def get_signal (v : ℚ) (ub lb : Option ℝ) : Signal :=
  match ub, lb with
  | some u, some l =>
      if (v : ℝ) > u then .sell else if (v : ℝ) < l then .buy else .hold
  | _, _ => .insufficient

/-- One row of the indicator columns `MB / STD / UB / LB / 信号`. -/
structure IndRow where
  value : ℚ
  mb : Option ℚ
  std : Option ℝ
  ub : Option ℝ
  lb : Option ℝ
  signal : Signal

/-- The full indicator pass over the value column. -/
noncomputable def indicatorRows (xs : List ℚ) : List IndRow :=
  (List.range xs.length).map fun i =>
    { value := xs.getD i 0
      mb := rollingMB xs i
      std := rollingSTD xs i
      ub := rollingUB xs i
      lb := rollingLB xs i
      signal := get_signal (xs.getD i 0) (rollingUB xs i) (rollingLB xs i) }

/-- The DataFrame `get_fund_data_v2` returns: the cleaned `date` / `value`
columns, and the indicator columns when they were ever created (`none` means
the columns are altogether absent from the frame). -/
structure FundDF where
  points : List (Date × ℚ)
  bands : Option (List IndRow)

/-- Source lines 99-118: the indicator columns are created only when the
cleaned frame has at least 20 rows. -/
noncomputable def computeDF (pts : List (Date × ℚ)) : FundDF :=
  { points := pts
    bands := if 20 ≤ pts.length then some (indicatorRows (pts.map Prod.snd)) else none }

/-- The unconditional recomputation both realtime splices perform after
appending the synthetic row (they rebuild `MB / STD / UB / LB` with no length
guard; the detail-page splice also rebuilds 信号). -/
noncomputable def recomputeBands (pts : List (Date × ℚ)) : FundDF :=
  { points := pts
    bands := some (indicatorRows (pts.map Prod.snd)) }

/-- The `MB` cell of row `i`, `none` when the column is absent or NaN. -/
def mbAt (df : FundDF) (i : Nat) : Option ℚ :=
  df.bands.bind fun rs => (rs.get? i).bind IndRow.mb

/-- The `STD` cell of row `i`. -/
def stdAt (df : FundDF) (i : Nat) : Option ℝ :=
  df.bands.bind fun rs => (rs.get? i).bind IndRow.std

/-- The `UB` cell of row `i`. -/
def ubAt (df : FundDF) (i : Nat) : Option ℝ :=
  df.bands.bind fun rs => (rs.get? i).bind IndRow.ub

/-- The `LB` cell of row `i`. -/
def lbAt (df : FundDF) (i : Nat) : Option ℝ :=
  df.bands.bind fun rs => (rs.get? i).bind IndRow.lb

/-- The 信号 cell of row `i`, `none` when the column is absent. -/
def signalAt (df : FundDF) (i : Nat) : Option Signal :=
  df.bands.bind fun rs => (rs.get? i).map IndRow.signal

/-- `get_fund_data_v2` (source lines 25-129).  The input is the raw table,
`none` standing for the fetch having failed or returned an empty frame after
the retries.  The triple mirrors the source's
`(history_df, realtime_data, error_msg)`; the realtime slot is always `None`
in the source (section B was removed).  The four outcomes: a computed frame
on unique column recovery, the same via the positional fallback on columns
0 and 1, the recognition error with no frame, and — when a duplicated
rename target makes a coercion raise — the outer except path of lines
126-129, which returns the still-initialized EMPTY frame together with the
unexpected-error message. -/
noncomputable def get_fund_data_v2 (raw : Option RawTable) :
    Option FundDF × Option Unit × Option String :=
  match raw with
  | none => (none, none, some "接口未返回任何数据")
  | some t =>
      if t.rows.isEmpty then (none, none, some "接口未返回任何数据")
      else
        match resolveColumns t with
        | .resolved di vi => (some (computeDF (cleanSeries t di vi)), none, none)
        | .fallback => (some (computeDF (cleanSeries t 0 1)), none, none)
        | .failed => (none, none, some "数据列名识别失败")
        | .crash => (some ⟨[], none⟩, none, some "发生未预期的错误")

/-- What the fuzzy value-key lookup of `render_detail_page` (line 835) finds
in the realtime dict and what `float()` then makes of it: no 估算值/gsz key
at all (then `curr_val` keeps the last historical value from line 827), a
key whose value makes `float()` raise — or yields NaN, which the notna guard
stops the same way — or a key parsing to a rational. -/
inductive QuoteVal
  | noKey
  | bad
  | parsed (v : ℚ)
deriving DecidableEq

/-- The realtime dict `rt_data` of the detail page, abstracted by the only
two lookups performed on it: the value key (line 835 / 838) and whether a
rate key is present whose stripped string is neither a float nor the literal
dash, in which case the `float(raw_rate)` inside the synthetic-row
construction (line 857) raises and aborts the splice before the frame is
replaced. -/
structure RtQuote where
  val : QuoteVal
  rateRaises : Bool
deriving DecidableEq

/-- The realtime splice of `render_detail_page` (source lines 824-883),
with `quote = none` for a falsy `rt_data`.  A `bad` value aborts the whole
block at line 838 (except → frame unchanged).  Otherwise the splice fires
when the last historical date is strictly before today, the current value —
the parsed quote value, or the LAST HISTORICAL value when the dict has no
value key — is positive, and no malformed rate string aborts the block; it
then appends the synthetic today row and recomputes bands and signals. -/
noncomputable def spliceDetail (df : FundDF) (quote : Option RtQuote) (today : Date) :
    FundDF :=
  match quote with
  | none => df
  | some q =>
      match q.val, df.points.getLast? with
      | QuoteVal.bad, _ => df
      | QuoteVal.noKey, some lastPt =>
          if lastPt.1 < today ∧ 0 < lastPt.2 ∧ q.rateRaises = false then
            recomputeBands (df.points ++ [(today, lastPt.2)])
          else df
      | QuoteVal.parsed v, some lastPt =>
          if lastPt.1 < today ∧ 0 < v ∧ q.rateRaises = false then
            recomputeBands (df.points ++ [(today, v)])
          else df
      | _, none => df

/-- The realtime splice of `fetch_single_fund_stats` (source lines 455-479):
appended whenever an estimate is present and the last historical date is
strictly before today — the source performs no positivity check here. -/
noncomputable def spliceOverview (hist : FundDF) (currentEst : Option ℚ) (today : Date) :
    FundDF :=
  match currentEst, hist.points.getLast? with
  | some v, some lastPt =>
      if lastPt.1 < today then recomputeBands (hist.points ++ [(today, v)]) else hist
  | _, _ => hist

/-- The per-code stats dictionary `fetch_single_fund_stats` accumulates:
the raw `UB` / `LB` of the last row (absent when the columns are) and the
latest historical value.  The 建议 slot starts at 数据不足 and is only
settled later by `calculate_final_signal`. -/
structure Stats where
  ubRaw : Option ℝ
  lbRaw : Option ℝ
  latest : Option ℚ

/-- The default stats dictionary (source lines 438-445), used whenever the
history fetch failed, returned nothing or raised. -/
def defaultStats : Stats := ⟨none, none, none⟩

/-- Reading `UB_raw` / `LB_raw` / 最新净值 off the (possibly spliced)
history frame (source lines 481-515). -/
noncomputable def buildStats (df : FundDF) : Stats :=
  { ubRaw := df.bands.bind fun rs => rs.getLast?.bind IndRow.ub
    lbRaw := df.bands.bind fun rs => rs.getLast?.bind IndRow.lb
    latest := (df.points.getLast?).map Prod.snd }

/-- `fetch_single_fund_stats` (source lines 431-518), with the history fetch
abstracted as an oracle from codes to the first component of
`get_fund_data_v2` (`none` for a failed or empty fetch). -/
noncomputable def fetch_single_fund_stats (fetch : String → Option FundDF)
    (est : Option ℚ) (today : Date) (code : String) : Stats :=
  match fetch code with
  | none => defaultStats
  | some hist =>
      if hist.points.isEmpty then defaultStats
      else buildStats (spliceOverview hist est today)

/-- The current-value fallback chain of `calculate_final_signal`:
估算值, then the quote's 单位净值, then the history's 最新净值. -/
def resolveCurr (estVal dwjz latest : Option ℚ) : Option ℚ :=
  match estVal with
  | some v => some v
  | none =>
      match dwjz with
      | some v => some v
      | none => latest

open Classical in
/-- `calculate_final_signal` (source lines 579-610): 数据不足 when no current
value or no raw bands are available, otherwise the band comparison. -/
noncomputable def calculate_final_signal (estVal dwjz : Option ℚ) (s : Stats) : Signal :=
  match resolveCurr estVal dwjz s.latest with
  | none => .insufficient
  | some v =>
      match s.ubRaw, s.lbRaw with
      | some u, some l =>
          if (v : ℝ) > u then .sell else if (v : ℝ) < l then .buy else .hold
      | _, _ => .insufficient

/-- The batch collection of `render_overview_page` (source lines 520-534 and
543-553): one stats entry per requested code, keyed by code.  The thread pool
only reorders completion; the merge is keyed, so the mapping below is the
batch's observable content. -/
noncomputable def overviewBatch (codes : List String) (fetch : String → Option FundDF)
    (est : String → Option ℚ) (today : Date) : List (String × Stats) :=
  codes.map fun c => (c, fetch_single_fund_stats fetch (est c) today c)

/-- Spec-side definition (spec 4.3, refinement target): the arithmetic mean
of `value` over the closed window ending at index `i`, written directly as a
sum over the 20 window positions. -/
def specWindowMean (xs : List ℚ) (i : Nat) : ℚ :=
  (((List.range 20).map fun j => xs.getD (i - 19 + j) 0).sum) / 20

/-- Spec-side definition (spec 4.3, refinement target): the sample variance
over the closed window ending at index `i`, divisor 19 (window size minus
one); the spec's sample standard deviation is its square root. -/
def specWindowVar (xs : List ℚ) (i : Nat) : ℚ :=
  (((List.range 20).map fun j => (xs.getD (i - 19 + j) 0 - specWindowMean xs i) ^ 2).sum) / 19

instance : IsTrans (Date × ℚ) (fun a b => a.1 ≤ b.1) :=
  ⟨fun _ _ _ h1 h2 => le_trans h1 h2⟩

instance : IsTotal (Date × ℚ) (fun a b => a.1 ≤ b.1) :=
  ⟨fun a b => le_total a.1 b.1⟩

lemma cleanSeries_perm (t : RawTable) (di vi : Nat) :
    (cleanSeries t di vi).Perm (dropna (parsedRows t di vi)) :=
  List.perm_insertionSort _ _

lemma cleanSeries_sorted (t : RawTable) (di vi : Nat) :
    (cleanSeries t di vi).Sorted (fun a b => a.1 ≤ b.1) :=
  List.sorted_insertionSort _ _

lemma mem_dropna (l : List (Option Date × Option ℚ)) (d : Date) (v : ℚ) :
    (d, v) ∈ dropna l ↔ (some d, some v) ∈ l := by
  simp only [dropna, List.mem_filterMap]
  constructor
  · rintro ⟨⟨d?, v?⟩, hmem, heq⟩
    match d?, v? with
    | some _, some _ => simp only [Option.some.injEq, Prod.mk.injEq] at heq
                        obtain ⟨rfl, rfl⟩ := heq
                        exact hmem
    | none, _ => simp at heq
    | some _, none => simp at heq
  · intro h
    exact ⟨(some d, some v), h, rfl⟩

lemma window20_eq (xs : List ℚ) (i : Nat) (h19 : 19 ≤ i) (hlt : i < xs.length) :
    window20 xs i = (List.range 20).map fun j => xs.getD (i - 19 + j) 0 := by
  apply List.ext_getElem
  · simp only [window20, List.length_take, List.length_drop, List.length_map,
      List.length_range]
    omega
  · intro j hj1 hj2
    have hj : j < 20 := by
      simpa using hj2
    have hb : i - 19 + j < xs.length := by omega
    simp only [window20, List.getElem_take, List.getElem_drop, List.getElem_map,
      List.getElem_range]
    rw [List.getD_eq_getElem _ _ hb]

lemma window20_length (xs : List ℚ) (i : Nat) (h19 : 19 ≤ i) (hlt : i < xs.length) :
    (window20 xs i).length = 20 := by
  rw [window20_eq xs i h19 hlt]
  simp

lemma mean_window20 (xs : List ℚ) (i : Nat) (h19 : 19 ≤ i) (hlt : i < xs.length) :
    mean (window20 xs i) = specWindowMean xs i := by
  rw [window20_eq xs i h19 hlt]
  simp [mean, specWindowMean]

lemma sampleVar_window20 (xs : List ℚ) (i : Nat) (h19 : 19 ≤ i) (hlt : i < xs.length) :
    sampleVar (window20 xs i) = specWindowVar xs i := by
  have hm : mean ((List.range 20).map fun j => xs.getD (i - 19 + j) 0) =
      specWindowMean xs i := by
    simp [mean, specWindowMean]
  rw [window20_eq xs i h19 hlt]
  simp only [sampleVar, hm, List.map_map, Function.comp_def, List.length_map,
    List.length_range]
  norm_num [specWindowVar]

lemma indicatorRows_at (xs : List ℚ) (i : Nat) (hi : i < xs.length) :
    (indicatorRows xs)[i]? = some
      { value := xs.getD i 0
        mb := rollingMB xs i
        std := rollingSTD xs i
        ub := rollingUB xs i
        lb := rollingLB xs i
        signal := get_signal (xs.getD i 0) (rollingUB xs i) (rollingLB xs i) } := by
  simp [indicatorRows, List.getElem?_range, hi]

lemma computeDF_bands (pts : List (Date × ℚ)) (h : 20 ≤ pts.length) :
    (computeDF pts).bands = some (indicatorRows (pts.map Prod.snd)) := by
  simp [computeDF, h]

lemma mbAt_computeDF (pts : List (Date × ℚ)) (i : Nat)
    (h20 : 20 ≤ pts.length) (hi : i < pts.length) :
    mbAt (computeDF pts) i = rollingMB (pts.map Prod.snd) i := by
  have hi2 : i < (pts.map Prod.snd).length := by simpa using hi
  simp [mbAt, computeDF_bands pts h20, indicatorRows_at _ i hi2]

lemma stdAt_computeDF (pts : List (Date × ℚ)) (i : Nat)
    (h20 : 20 ≤ pts.length) (hi : i < pts.length) :
    stdAt (computeDF pts) i = rollingSTD (pts.map Prod.snd) i := by
  have hi2 : i < (pts.map Prod.snd).length := by simpa using hi
  simp [stdAt, computeDF_bands pts h20, indicatorRows_at _ i hi2]

lemma ubAt_computeDF (pts : List (Date × ℚ)) (i : Nat)
    (h20 : 20 ≤ pts.length) (hi : i < pts.length) :
    ubAt (computeDF pts) i = rollingUB (pts.map Prod.snd) i := by
  have hi2 : i < (pts.map Prod.snd).length := by simpa using hi
  simp [ubAt, computeDF_bands pts h20, indicatorRows_at _ i hi2]

lemma lbAt_computeDF (pts : List (Date × ℚ)) (i : Nat)
    (h20 : 20 ≤ pts.length) (hi : i < pts.length) :
    lbAt (computeDF pts) i = rollingLB (pts.map Prod.snd) i := by
  have hi2 : i < (pts.map Prod.snd).length := by simpa using hi
  simp [lbAt, computeDF_bands pts h20, indicatorRows_at _ i hi2]

lemma signalAt_computeDF (pts : List (Date × ℚ)) (i : Nat)
    (h20 : 20 ≤ pts.length) (hi : i < pts.length) :
    signalAt (computeDF pts) i = some (get_signal ((pts.map Prod.snd).getD i 0)
      (rollingUB (pts.map Prod.snd) i) (rollingLB (pts.map Prod.snd) i)) := by
  have hi2 : i < (pts.map Prod.snd).length := by simpa using hi
  simp [signalAt, computeDF_bands pts h20, indicatorRows_at _ i hi2]

lemma window20_replicate (n : Nat) (v : ℚ) (i : Nat) (h19 : 19 ≤ i) (hlt : i < n) :
    window20 (List.replicate n v) i = List.replicate 20 v := by
  rw [window20, List.drop_replicate, List.take_replicate]
  congr 1
  omega

lemma mean_replicate20 (v : ℚ) : mean (List.replicate 20 v) = v := by
  rw [mean, List.sum_replicate, List.length_replicate, nsmul_eq_mul]
  norm_num

lemma sampleVar_replicate20 (v : ℚ) : sampleVar (List.replicate 20 v) = 0 := by
  rw [sampleVar, mean_replicate20, List.map_replicate]
  simp

lemma fetch_single_congr (f g : String → Option FundDF) (e : Option ℚ) (today : Date)
    (code : String) (h : f code = g code) :
    fetch_single_fund_stats f e today code = fetch_single_fund_stats g e today code := by
  simp only [fetch_single_fund_stats, h]

/-- A table whose single row carries the parseable value 25, outside the
plausible range `(0.01, 20)` of the spec. -/
def exTableRange : RawTable :=
  { colNames := ["日期", "单位净值"]
    rows := [[⟨some 1, none⟩, ⟨none, some 25⟩]] }

/-- A table whose unit-NAV column is literally the row index `[0, 1, 2]`
while a third column carries plausible decimal prices. -/
def exTableIndex : RawTable :=
  { colNames := ["净值日期", "单位净值", "七日年化"]
    rows := [
      [⟨some 0, some 0⟩, ⟨none, some 0⟩, ⟨none, some (121 / 100)⟩],
      [⟨some 1, some 1⟩, ⟨none, some 1⟩, ⟨none, some (122 / 100)⟩],
      [⟨some 2, some 2⟩, ⟨none, some 2⟩, ⟨none, some (123 / 100)⟩]] }

/-- A table whose single row has an unparsable date, so that cleaning drops
every row. -/
def exTableUnparsable : RawTable :=
  { colNames := ["日期", "单位净值"]
    rows := [[⟨none, none⟩, ⟨none, some 1⟩]] }

/-- A table with two rows on the same date. -/
def exTableDup : RawTable :=
  { colNames := ["日期", "单位净值"]
    rows := [
      [⟨some 5, none⟩, ⟨none, some 2⟩],
      [⟨some 5, none⟩, ⟨none, some 3⟩]] }

/-- A table with one valid row: its cleaned series has length 1 < 20. -/
def exTableShort : RawTable :=
  { colNames := ["日期", "单位净值"]
    rows := [[⟨some 1, none⟩, ⟨none, some 1⟩]] }

/-- A table with a single column, none of whose names carry a marker. -/
def exTableOneCol : RawTable :=
  { colNames := ["a"]
    rows := [] }

/-- A constant cleaned series of length 20. -/
def exPts20 : List (Date × ℚ) := List.replicate 20 ((0 : Int), (1 : ℚ))

/-- A one-point history frame, as `get_fund_data_v2` returns it for a short
series (no indicator columns). -/
def exHist1 : FundDF := ⟨[((0 : Int), (1 : ℚ))], none⟩

/-- C1 counterexample: a parseable row with value 25 (≥ 20) survives the
cleaning of `get_fund_data_v2` and is returned in the cleaned series — the
source has no plausibility-range filter. -/
theorem range_rejection_cex :
    ((get_fund_data_v2 (some exTableRange)).1.map FundDF.points) = some [(1, 25)] ∧
    (20 : ℚ) ≤ 25 := by
  constructor
  · rfl
  · norm_num

/-- C1 (amended): cleaning drops exactly the rows on which a coercion failed
(null date or null value); no range filter is applied, so a row whose value
is ≤ 0.01 or ≥ 20 still appears in the cleaned series. -/
theorem clean_no_range_filter (t : RawTable) (di vi : Nat) (d : Date) (v : ℚ) :
    (d, v) ∈ cleanSeries t di vi ↔ (some d, some v) ∈ parsedRows t di vi := by
  rw [← mem_dropna]
  exact (cleanSeries_perm t di vi).mem_iff

/-- C2 counterexample: on `exTableIndex` the resolver keeps the
marker-named index-like column `[0, 1, 2]` as the value column and the
cleaned series is the integer sequence, not the decimal prices — the source
performs no index detection (its own comment at lines 96-97 says so). -/
theorem index_column_cex :
    resolveColumns exTableIndex = ColResolution.resolved 0 1 ∧
    ((get_fund_data_v2 (some exTableIndex)).1.map fun df => df.points.map Prod.snd) =
      some [0, 1, 2] := by
  exact ⟨rfl, rfl⟩

/-- C2 (amended): column resolution is purely name-based (marker match with
positional fallback, and a crash into the error path when a marker is
duplicated) and never inspects cell contents, so an index-like value column
is kept whenever its name alone carries the unit-NAV marker. -/
theorem resolve_never_inspects_values (names : List String)
    (rows rows' : List (List Cell)) (di vi : Nat) :
    (resolveColumns ⟨names, rows⟩ = resolveColumns ⟨names, rows'⟩) ∧
    (names.findIdx? isDateName = some di → names.findIdx? isValueName = some vi →
      names.countP isDateName ≤ 1 → names.countP isValueName ≤ 1 →
      names.countP isGrowthName ≤ 1 →
      resolveColumns ⟨names, rows⟩ = ColResolution.resolved di vi) := by
  refine ⟨rfl, fun h1 h2 hd hv hg => ?_⟩
  have hcond : ¬ (2 ≤ names.countP isDateName ∨ 2 ≤ names.countP isValueName ∨
      2 ≤ names.countP isGrowthName) := by
    omega
  simp only [resolveColumns, h1, h2]
  rw [if_neg hcond]

/-- A table on which the rename loop maps two column names to `date`: the
coercion of the duplicated column raises and `get_fund_data_v2` takes its
outer except path. -/
def exTableDupMarkers : RawTable :=
  { colNames := ["a日期", "b日期", "单位净值"]
    rows := [[⟨some 1, none⟩, ⟨some 1, none⟩, ⟨none, some 1⟩]] }

/-- C3 counterexample, in both directions of the claimed exactly-one: the
all-rows-dropped table yields an empty series WITH NO error (neither branch
of the claim present), and the duplicate-date-marker table crashes the
coercion into the except path of lines 126-129, which yields an (empty)
series object TOGETHER WITH an error. -/
theorem empty_series_no_error_cex :
    ((get_fund_data_v2 (some exTableUnparsable)).1.map FundDF.points) = some [] ∧
    (get_fund_data_v2 (some exTableUnparsable)).2.2 = none ∧
    ((get_fund_data_v2 (some exTableDupMarkers)).1.map FundDF.points) = some [] ∧
    (get_fund_data_v2 (some exTableDupMarkers)).2.2.isSome = true := by
  exact ⟨rfl, rfl, rfl, rfl⟩

/-- C3 (amended): the fetch never raises (it is a total function here) and a
NON-EMPTY series never coexists with an error: whenever the error is
present, the series slot holds nothing or an empty frame.  The exactly-one
contract fails in both directions — an all-rows-dropped fetch returns an
empty series with the error absent, and a coercion crash on duplicated
marker-renamed columns returns the initialized empty frame together with
the error. -/
theorem fetch_outcome_exclusive (raw : Option RawTable) :
    (get_fund_data_v2 raw).2.2 = none ∨
    (∀ df, (get_fund_data_v2 raw).1 = some df → df.points = []) := by
  rcases raw with _ | t
  · right
    intro df h
    simp [get_fund_data_v2] at h
  · by_cases he : t.rows.isEmpty
    · right
      intro df h
      simp [get_fund_data_v2, he] at h
    · cases hr : resolveColumns t with
      | resolved di vi =>
          left
          simp [get_fund_data_v2, he, hr]
      | fallback =>
          left
          simp [get_fund_data_v2, he, hr]
      | failed =>
          right
          intro df h
          simp [get_fund_data_v2, he, hr] at h
      | crash =>
          right
          intro df h
          simp only [get_fund_data_v2, he, hr, Bool.false_eq_true, if_false,
            Option.some.injEq] at h
          rw [← h]

/-- C6 counterexample: two rows share date 5 and both survive cleaning — the
source deduplicates nothing, so the output is not strictly increasing by
date and holds two points on one date. -/
theorem duplicate_dates_cex :
    ((get_fund_data_v2 (some exTableDup)).1.map fun df => df.points.map Prod.fst) =
      some [5, 5] := by
  rfl

/-- C6 (amended): the cleaned series is sorted ascending — non-strictly — by
date and is a permutation of the rows that survive the coercions: duplicate
dates are all retained. -/
theorem clean_sorted_no_dedup (t : RawTable) (di vi : Nat) :
    (cleanSeries t di vi).Sorted (fun a b => a.1 ≤ b.1) ∧
    (cleanSeries t di vi).Perm (dropna (parsedRows t di vi)) :=
  ⟨cleanSeries_sorted t di vi, cleanSeries_perm t di vi⟩

/-- C7 counterexample: for a cleaned series of length 1 < 20 the indicator
columns are never created, so the point carries no signal cell at all —
rather than a signal equal to 数据不足. -/
theorem short_series_no_signal_cex :
    ((get_fund_data_v2 (some exTableShort)).1.map fun df => signalAt df 0) = some none ∧
    ((get_fund_data_v2 (some exTableShort)).1.map FundDF.bands) = some none := by
  exact ⟨rfl, rfl⟩

/-- C7 (amended): within a series of length ≥ 20, every index `i < 19`
carries signal 数据不足 and absent band values; for a series of length
< 20 the indicator columns (bands and signal alike) are absent altogether,
so such points carry no signal value at all. -/
theorem insufficient_window_policy (pts : List (Date × ℚ)) (i : Nat) (h : i < 19) :
    (20 ≤ pts.length → i < pts.length →
      signalAt (computeDF pts) i = some Signal.insufficient ∧
      mbAt (computeDF pts) i = none ∧ stdAt (computeDF pts) i = none ∧
      ubAt (computeDF pts) i = none ∧ lbAt (computeDF pts) i = none) ∧
    (pts.length < 20 →
      (computeDF pts).bands = none ∧ signalAt (computeDF pts) i = none) := by
  constructor
  · intro h20 hi
    have hxs : (pts.map Prod.snd).length = pts.length := by simp
    have hcond : ¬ (19 ≤ i ∧ i < (pts.map Prod.snd).length) := by
      intro hc
      omega
    have hmb : rollingMB (pts.map Prod.snd) i = none := by
      rw [rollingMB, if_neg hcond]
    have hstd : rollingSTD (pts.map Prod.snd) i = none := by
      rw [rollingSTD, if_neg hcond]
    have hub : rollingUB (pts.map Prod.snd) i = none := by
      rw [rollingUB, hmb]
    have hlb : rollingLB (pts.map Prod.snd) i = none := by
      rw [rollingLB, hmb]
    refine ⟨?_, ?_, ?_, ?_, ?_⟩
    · rw [signalAt_computeDF pts i h20 hi, hub, hlb]
      rfl
    · rw [mbAt_computeDF pts i h20 hi, hmb]
    · rw [stdAt_computeDF pts i h20 hi, hstd]
    · rw [ubAt_computeDF pts i h20 hi, hub]
    · rw [lbAt_computeDF pts i h20 hi, hlb]
  · intro hlt
    have hn : ¬ 20 ≤ pts.length := by omega
    constructor
    · simp [computeDF, hn]
    · simp [signalAt, computeDF, hn]

/-- C7 witness: at the concrete constant series of length 20 and index 0,
the first clause of the policy applies. -/
theorem insufficient_window_policy_witness :
    signalAt (computeDF exPts20) 0 = some Signal.insufficient ∧
    mbAt (computeDF exPts20) 0 = none := by
  have h := insufficient_window_policy exPts20 0 (by norm_num)
  have h1 := h.1 (by decide) (by decide)
  exact ⟨h1.1, h1.2.1⟩

/-- C10: when no column name carries the date marker or the unit-NAV marker,
resolution falls back positionally — the first two columns become (date,
value) regardless of names and contents when at least two columns exist,
and with fewer than two columns the fetch returns an error and no series. -/
theorem positional_fallback (t : RawTable)
    (h : ∀ s ∈ t.colNames, isDateName s = false ∧ isValueName s = false) :
    (2 ≤ t.colNames.length →
      resolveColumns t = ColResolution.fallback ∧
      (t.rows.isEmpty = false →
        (get_fund_data_v2 (some t)).1 = some (computeDF (cleanSeries t 0 1)) ∧
        (get_fund_data_v2 (some t)).2.2 = none)) ∧
    (t.colNames.length < 2 →
      resolveColumns t = ColResolution.failed ∧
      (get_fund_data_v2 (some t)).1 = none ∧
      (get_fund_data_v2 (some t)).2.2.isSome = true) := by
  have hd : t.colNames.findIdx? isDateName = none := by
    rw [List.findIdx?_eq_none_iff]
    intro s hs
    simp [(h s hs).1]
  have hv : t.colNames.findIdx? isValueName = none := by
    rw [List.findIdx?_eq_none_iff]
    intro s hs
    simp [(h s hs).2]
  constructor
  · intro h2
    have hr : resolveColumns t = ColResolution.fallback := by
      simp [resolveColumns, hd, hv, h2]
    refine ⟨hr, fun he => ?_⟩
    constructor
    · simp [get_fund_data_v2, he, hr]
    · simp [get_fund_data_v2, he, hr]
  · intro h2
    have hr : resolveColumns t = ColResolution.failed := by
      have hn : ¬ 2 ≤ t.colNames.length := by omega
      simp [resolveColumns, hd, hv, hn]
    refine ⟨hr, ?_, ?_⟩
    · by_cases he : t.rows.isEmpty <;> simp [get_fund_data_v2, he, hr]
    · by_cases he : t.rows.isEmpty <;> simp [get_fund_data_v2, he, hr]

/-- C10 witness: the one-column marker-free table errors out. -/
theorem positional_fallback_witness :
    resolveColumns exTableOneCol = ColResolution.failed ∧
    (get_fund_data_v2 (some exTableOneCol)).1 = none ∧
    (get_fund_data_v2 (some exTableOneCol)).2.2.isSome = true := by
  exact (positional_fallback exTableOneCol (by decide)).2 (by decide)

/-- C4: at every fully-windowed index (`19 ≤ i < length`, so length ≥ 20)
the indicator pass yields `MB` = the arithmetic mean over the closed window
`[i-19, i]`, `STD` = the sample standard deviation over it (divisor 19 =
window size − 1), `UB = MB + 2·STD` and `LB = MB − 2·STD`, with window 20
and multiplier 2 fixed. -/
theorem rolling_band_formula (pts : List (Date × ℚ)) (i : Nat)
    (h19 : 19 ≤ i) (hlt : i < pts.length) :
    mbAt (computeDF pts) i = some (specWindowMean (pts.map Prod.snd) i) ∧
    stdAt (computeDF pts) i =
      some (Real.sqrt (specWindowVar (pts.map Prod.snd) i)) ∧
    ubAt (computeDF pts) i = some ((specWindowMean (pts.map Prod.snd) i : ℝ) +
      2 * Real.sqrt (specWindowVar (pts.map Prod.snd) i)) ∧
    lbAt (computeDF pts) i = some ((specWindowMean (pts.map Prod.snd) i : ℝ) -
      2 * Real.sqrt (specWindowVar (pts.map Prod.snd) i)) := by
  have h20 : 20 ≤ pts.length := by omega
  have hlen : (pts.map Prod.snd).length = pts.length := by simp
  have hi : i < (pts.map Prod.snd).length := by omega
  have hmb : rollingMB (pts.map Prod.snd) i = some (specWindowMean (pts.map Prod.snd) i) := by
    rw [rollingMB, if_pos ⟨h19, hi⟩, mean_window20 _ i h19 hi]
  have hstd : rollingSTD (pts.map Prod.snd) i =
      some (Real.sqrt (specWindowVar (pts.map Prod.snd) i)) := by
    rw [rollingSTD, if_pos ⟨h19, hi⟩, sampleVar_window20 _ i h19 hi]
  refine ⟨?_, ?_, ?_, ?_⟩
  · rw [mbAt_computeDF pts i h20 hlt, hmb]
  · rw [stdAt_computeDF pts i h20 hlt, hstd]
  · rw [ubAt_computeDF pts i h20 hlt, rollingUB, hmb, hstd]
  · rw [lbAt_computeDF pts i h20 hlt, rollingLB, hmb, hstd]

/-- C4 witness: the formulas at the constant length-20 series, index 19. -/
theorem rolling_band_formula_witness :
    mbAt (computeDF exPts20) 19 = some (specWindowMean (exPts20.map Prod.snd) 19) ∧
    stdAt (computeDF exPts20) 19 =
      some (Real.sqrt (specWindowVar (exPts20.map Prod.snd) 19)) ∧
    ubAt (computeDF exPts20) 19 = some ((specWindowMean (exPts20.map Prod.snd) 19 : ℝ) +
      2 * Real.sqrt (specWindowVar (exPts20.map Prod.snd) 19)) ∧
    lbAt (computeDF exPts20) 19 = some ((specWindowMean (exPts20.map Prod.snd) 19 : ℝ) -
      2 * Real.sqrt (specWindowVar (exPts20.map Prod.snd) 19)) := by
  exact rolling_band_formula exPts20 19 (by decide) (by decide)

/-- C5: the signal of a banded point is 卖出 exactly above the upper band,
买入 exactly below the lower band and 持有 otherwise — both ties resolve to
持有 — and a constant series of length ≥ 20 has `STD = 0`, collapsed bands
`UB = LB = v` and signal 持有 at every fully-windowed point. -/
theorem signal_tie_and_constant_hold :
    (∀ (v : ℚ) (u l : ℝ), u < (v : ℝ) →
      get_signal v (some u) (some l) = Signal.sell) ∧
    (∀ (v : ℚ) (u l : ℝ), (v : ℝ) ≤ u → (v : ℝ) < l →
      get_signal v (some u) (some l) = Signal.buy) ∧
    (∀ (v : ℚ) (u l : ℝ), (v : ℝ) ≤ u → l ≤ (v : ℝ) →
      get_signal v (some u) (some l) = Signal.hold) ∧
    (∀ (n : Nat) (v : ℚ) (i : Nat), 20 ≤ n → 19 ≤ i → i < n →
      stdAt (computeDF (List.replicate n ((0 : Int), v))) i = some 0 ∧
      ubAt (computeDF (List.replicate n ((0 : Int), v))) i = some (v : ℝ) ∧
      lbAt (computeDF (List.replicate n ((0 : Int), v))) i = some (v : ℝ) ∧
      signalAt (computeDF (List.replicate n ((0 : Int), v))) i = some Signal.hold) := by
  refine ⟨?_, ?_, ?_, ?_⟩
  · intro v u l h
    simp only [get_signal]
    rw [if_pos h]
  · intro v u l h1 h2
    simp only [get_signal]
    rw [if_neg (not_lt.mpr h1), if_pos h2]
  · intro v u l h1 h2
    simp only [get_signal]
    rw [if_neg (not_lt.mpr h1), if_neg (not_lt.mpr h2)]
  · intro n v i h20 h19 hlt
    have hpts : (List.replicate n ((0 : Int), v)).length = n := by simp
    have hxs : (List.replicate n ((0 : Int), v)).map Prod.snd = List.replicate n v := by
      simp [List.map_replicate]
    have hilt : i < (List.replicate n ((0 : Int), v)).length := by omega
    have h20' : 20 ≤ (List.replicate n ((0 : Int), v)).length := by omega
    have hirep : i < (List.replicate n v).length := by simp; omega
    have hw : window20 (List.replicate n v) i = List.replicate 20 v :=
      window20_replicate n v i h19 hlt
    have hmb : rollingMB (List.replicate n v) i = some v := by
      rw [rollingMB, if_pos ⟨h19, hirep⟩, hw, mean_replicate20]
    have hstd : rollingSTD (List.replicate n v) i = some 0 := by
      rw [rollingSTD, if_pos ⟨h19, hirep⟩, hw, sampleVar_replicate20]
      norm_num [Real.sqrt_zero]
    have hub : rollingUB (List.replicate n v) i = some (v : ℝ) := by
      rw [rollingUB, hmb, hstd]
      norm_num
    have hlb : rollingLB (List.replicate n v) i = some (v : ℝ) := by
      rw [rollingLB, hmb, hstd]
      norm_num
    have hval : (List.replicate n v).getD i 0 = v := by
      rw [List.getD_eq_getElem _ _ hirep]
      simp
    refine ⟨?_, ?_, ?_, ?_⟩
    · rw [stdAt_computeDF _ i h20' hilt, hxs, hstd]
    · rw [ubAt_computeDF _ i h20' hilt, hxs, hub]
    · rw [lbAt_computeDF _ i h20' hilt, hxs, hlb]
    · rw [signalAt_computeDF _ i h20' hilt, hxs, hval, hub, hlb]
      simp only [get_signal]
      rw [if_neg (lt_irrefl _), if_neg (lt_irrefl _)]

/-- C5 witness: the constant length-20 series holds at its last point. -/
theorem signal_tie_and_constant_hold_witness :
    signalAt (computeDF (List.replicate 20 ((0 : Int), (1 : ℚ)))) 19 =
      some Signal.hold := by
  exact (signal_tie_and_constant_hold.2.2.2 20 1 19 (by decide) (by decide) (by decide)).2.2.2

/-- C8 counterexample, in both places: the overview-page splice
(`fetch_single_fund_stats`) appends the synthetic today row even for the
non-positive quote value −1 (positivity is checked only on the detail page);
and the detail-page splice appends the LAST HISTORICAL value as a synthetic
today row when the realtime dict is present but carries no value key — a
malformed quote for which the claim requires the series unchanged. -/
theorem splice_no_positivity_cex :
    (spliceOverview exHist1 (some (-1)) 1).points = [(0, 1), (1, -1)] ∧
    ¬ ((0 : ℚ) < -1) ∧
    (spliceDetail exHist1 (some ⟨QuoteVal.noKey, false⟩) 1).points = [(0, 1), (1, 1)] := by
  refine ⟨rfl, ?_, rfl⟩
  norm_num

/-- C8 (amended): the detail-page splice appends a synthetic today row and
recomputes the bands exactly when the last historical date is strictly
before today, the current value is positive — the parsed quote value when a
value key exists, else the last historical value — and no malformed rate
string aborts the block; it returns the input frame unchanged in every
other case (absent quote, a value key that fails to parse, a stale last
date, a non-positive current value, or a rate string that raises).  The
overview-page splice omits the positivity check and appends whenever an
estimate is present and the last date is strictly before today. -/
theorem splice_contract :
    (∀ (df : FundDF) (today : Date), spliceDetail df none today = df) ∧
    (∀ (df : FundDF) (rr : Bool) (today : Date),
      spliceDetail df (some ⟨QuoteVal.bad, rr⟩) today = df) ∧
    (∀ (df : FundDF) (v : ℚ) (rr : Bool) (today : Date) (p : Date × ℚ),
      df.points.getLast? = some p → ¬ (p.1 < today ∧ 0 < v ∧ rr = false) →
      spliceDetail df (some ⟨QuoteVal.parsed v, rr⟩) today = df) ∧
    (∀ (df : FundDF) (v : ℚ) (rr : Bool) (today : Date) (p : Date × ℚ),
      df.points.getLast? = some p → p.1 < today → 0 < v → rr = false →
      spliceDetail df (some ⟨QuoteVal.parsed v, rr⟩) today =
        recomputeBands (df.points ++ [(today, v)])) ∧
    (∀ (df : FundDF) (rr : Bool) (today : Date) (p : Date × ℚ),
      df.points.getLast? = some p → ¬ (p.1 < today ∧ 0 < p.2 ∧ rr = false) →
      spliceDetail df (some ⟨QuoteVal.noKey, rr⟩) today = df) ∧
    (∀ (df : FundDF) (rr : Bool) (today : Date) (p : Date × ℚ),
      df.points.getLast? = some p → p.1 < today → 0 < p.2 → rr = false →
      spliceDetail df (some ⟨QuoteVal.noKey, rr⟩) today =
        recomputeBands (df.points ++ [(today, p.2)])) ∧
    (∀ (hist : FundDF) (v : ℚ) (today : Date) (p : Date × ℚ),
      hist.points.getLast? = some p → p.1 < today →
      spliceOverview hist (some v) today = recomputeBands (hist.points ++ [(today, v)])) := by
  refine ⟨?_, ?_, ?_, ?_, ?_, ?_, ?_⟩
  · intro df today
    rfl
  · intro df rr today
    rcases hp : df.points.getLast? with _ | p
    · simp [spliceDetail, hp]
    · simp [spliceDetail, hp]
  · intro df v rr today p hp hn
    simp only [spliceDetail, hp]
    rw [if_neg hn]
  · intro df v rr today p hp h1 h2 h3
    simp only [spliceDetail, hp]
    rw [if_pos ⟨h1, h2, h3⟩]
  · intro df rr today p hp hn
    simp only [spliceDetail, hp]
    rw [if_neg hn]
  · intro df rr today p hp h1 h2 h3
    simp only [spliceDetail, hp]
    rw [if_pos ⟨h1, h2, h3⟩]
  · intro hist v today p hp h1
    simp only [spliceOverview, hp]
    rw [if_pos h1]

/-- C8 witness: a valid parsed-quote splice on the one-point frame. -/
theorem splice_contract_witness :
    spliceDetail exHist1 (some ⟨QuoteVal.parsed 2, false⟩) 1 =
      recomputeBands (exHist1.points ++ [(1, 2)]) := by
  exact splice_contract.2.2.2.1 exHist1 2 false 1 (0, 1) rfl (by decide) (by decide) rfl

/-- C9: the batch keeps one entry per requested code in request order (so a
deduplicated input set appears exactly once each); a code whose history
fetch fails carries the default stats whose final recommendation is 数据不足;
and changing one code's fetch outcome never changes any other code's entry. -/
theorem batch_every_code_once :
    (∀ (codes : List String) (fetch : String → Option FundDF)
        (est : String → Option ℚ) (today : Date),
      (overviewBatch codes fetch est today).map Prod.fst = codes) ∧
    (∀ (codes : List String) (fetch : String → Option FundDF)
        (est : String → Option ℚ) (today : Date) (c : String),
      c ∈ codes → fetch c = none →
      (c, defaultStats) ∈ overviewBatch codes fetch est today ∧
      ∀ dwjz : Option ℚ,
        calculate_final_signal (est c) dwjz defaultStats = Signal.insufficient) ∧
    (∀ (codes : List String) (fetch : String → Option FundDF)
        (est : String → Option ℚ) (today : Date) (c c₀ : String), c ≠ c₀ →
      (overviewBatch codes (fun x => if x = c₀ then none else fetch x) est today).lookup c =
        (overviewBatch codes fetch est today).lookup c) := by
  refine ⟨?_, ?_, ?_⟩
  · intro codes fetch est today
    simp [overviewBatch, List.map_map, Function.comp_def]
  · intro codes fetch est today c hc hfc
    constructor
    · have hds : fetch_single_fund_stats fetch (est c) today c = defaultStats := by
        simp [fetch_single_fund_stats, hfc]
      refine List.mem_map.mpr ⟨c, hc, ?_⟩
      rw [hds]
    · intro dwjz
      rcases hcur : resolveCurr (est c) dwjz none with _ | v
      · simp [calculate_final_signal, defaultStats, hcur]
      · simp [calculate_final_signal, defaultStats, hcur]
  · intro codes fetch est today c c₀ hne
    induction codes with
    | nil => rfl
    | cons a tl ih =>
        have hstep : ∀ (g : String → Option FundDF),
            overviewBatch (a :: tl) g est today =
              (a, fetch_single_fund_stats g (est a) today a) ::
                overviewBatch tl g est today := by
          intro g
          rfl
        rw [hstep, hstep]
        by_cases hac : a = c
        · subst hac
          have hup : (fun x => if x = c₀ then none else fetch x) a = fetch a := by
            simp [hne]
          rw [fetch_single_congr _ _ _ _ _ hup]
          simp [List.lookup]
        · have hca : (c == a) = false := beq_eq_false_iff_ne.mpr fun h => hac h.symm
          simp only [List.lookup, hca]
          exact ih

/-- C9 witness: in a two-code batch where the first code's fetch fails, the
failing code still appears, tagged with the default (数据不足) stats. -/
theorem batch_every_code_once_witness :
    ("a", defaultStats) ∈ overviewBatch ["a", "b"]
      (fun c => if c = "a" then none else some exHist1) (fun _ => none) 0 := by
  exact ((batch_every_code_once.2.1) ["a", "b"]
    (fun c => if c = "a" then none else some exHist1) (fun _ => none) 0 "a"
    (by simp) (by simp)).1

end FundApp
